import Mathlib

/-!
Verification of the sandbox execution core of the NeMo-Agent-Toolkit examples
repository (`examples/sandbox_agent`).  The Python sources are shallowly
embedded: Python `str` values become Lean `String` (character-level slicing is
done on `String.data`, matching Python's character semantics), Python dicts
used as environment maps become functions `String → Option String`, fallible
methods become `Except`-valued functions, and the outcome of an external
engine call (the Docker SDK / Daytona SDK) is passed in explicitly as an
`outcome` argument so that the surrounding control flow of the Python method
can be modelled as a pure function.
-/

namespace SandboxAgent

/-! ## tools/common.py -/

/-- Embedding of `DEFAULT_MAX_OUTPUT_CHARS = 16000` from `tools/common.py`. -/
def DEFAULT_MAX_OUTPUT_CHARS : Nat := 16000

/-- Python character-level slice `text[:n]`:  the first `n` characters. -/
def pyTake (s : String) (n : Nat) : String := ⟨s.data.take n⟩

/-- Truncation marker appended by `truncate_output`:
`f"\n... (truncated, {len(text)} total chars)"`. -/
def truncMarker (totalChars : Nat) : String :=
  "\n... (truncated, " ++ toString totalChars ++ " total chars)"

/-- Embedding of `truncate_output(text, max_chars)` from `tools/common.py`:
if `len(text) > max_chars` return `text[:max_chars]` with the marker appended,
else return `text` unchanged.  `max_chars` is modelled as a natural number
(the repository only ever passes nonnegative limits). -/
def truncate_output (text : String) (max_chars : Nat := DEFAULT_MAX_OUTPUT_CHARS) :
    String :=
  if max_chars < text.length then pyTake text max_chars ++ truncMarker text.length
  else text

/-! ## sandbox/base.py : CommandResult -/

/-- Embedding of the `CommandResult` dataclass from `sandbox/base.py`. -/
structure CommandResult where
  exit_code : Int
  stdout : String
  stderr : String
deriving DecidableEq

/-- Embedding of the derived property `CommandResult.success`:
`return self.exit_code == 0`. -/
def CommandResult.success (r : CommandResult) : Bool := r.exit_code == 0

/-- Shape of the dictionary returned by `CommandResult.to_dict`. -/
structure CommandResultDict where
  exit_code : Int
  stdout : String
  stderr : String
  success : Bool
deriving DecidableEq

/-- Embedding of `CommandResult.to_dict`. -/
def CommandResult.to_dict (r : CommandResult) : CommandResultDict :=
  { exit_code := r.exit_code, stdout := r.stdout, stderr := r.stderr,
    success := r.success }

/-! ## sandbox/factory.py : environment building -/

/-- Embedding of `DEFAULT_PASS_ENV_VARS = ["TAVILY_API_KEY"]`. -/
def DEFAULT_PASS_ENV_VARS : List String := ["TAVILY_API_KEY"]

/-- Pointwise update of an environment map, modelling `env[k] = v`. -/
def envInsert (env : String → Option String) (k v : String) :
    String → Option String :=
  fun x => if x = k then some v else env x

/-- One iteration of the pass-through loop in `_build_environment`:
`if var_name not in env: value = os.environ.get(var_name); if value:
env[var_name] = value`.  Note `if value:` is false both for an unset variable
and for the empty string. -/
def passOne (host : String → Option String) (env : String → Option String)
    (var_name : String) : String → Option String :=
  if env var_name = none then
    match host var_name with
    | some v => if v = "" then env else envInsert env var_name v
    | none => env
  else env

/-- Embedding of `_build_environment(config)` from `sandbox/factory.py`:
start from the explicit `config.environment` (empty map if `None`), then walk
`config.pass_env_vars` (defaulting to `DEFAULT_PASS_ENV_VARS` when `None`)
copying host values for names not already present. -/
def build_environment (explicit : String → Option String)
    (pass_env_vars : Option (List String)) (host : String → Option String) :
    String → Option String :=
  (pass_env_vars.getD DEFAULT_PASS_ENV_VARS).foldl (passOne host) explicit

/-! ## Python string helpers used by the backends -/

/-- Whitespace recognized by Python's `str.strip()` (ASCII subset; all strings
manipulated by the embedded code are ASCII). -/
def isPySpace (c : Char) : Bool :=
  c = ' ' || c = '\t' || c = '\n' || c = '\x0b' || c = '\x0c' || c = '\r'

/-- List-level embedding of Python `str.strip()`. -/
def pyStripL (l : List Char) : List Char :=
  ((l.dropWhile isPySpace).reverse.dropWhile isPySpace).reverse

/-- Embedding of Python `str.strip()`. -/
def pyStrip (s : String) : String := ⟨pyStripL s.data⟩

/-- Characters left unquoted by `shlex.quote` (Python's `_find_unsafe`
regex, which rejects every character outside ASCII `\w` and the set
`@ % + = : , . / -`). -/
def shlexSafeChar (c : Char) : Bool :=
  c.isAlphanum || c = '_' || c = '@' || c = '%' || c = '+' || c = '=' ||
  c = ':' || c = ',' || c = '.' || c = '/' || c = '-'

/-- Embedding of `shlex.quote(s)`: empty strings become `''`, strings of safe
characters pass through, everything else is wrapped in single quotes with
each embedded single quote replaced by the sequence quote, double-quoted
quote, quote. -/
def shlex_quote (s : String) : String :=
  if s = "" then "''"
  else if s.data.all shlexSafeChar then s
  else
    "'" ++
      ⟨s.data.foldr
        (fun c acc =>
          if c = '\'' then '\'' :: '"' :: '\'' :: '"' :: '\'' :: acc
          else c :: acc) []⟩ ++ "'"

/-- Python `int()` truncation toward zero on a rational (the repository passes
`timeout` as a Python number; rationals model every value the claims are
settled at, with the same truncation behaviour). -/
def pyInt (q : ℚ) : Int := if 0 ≤ q then ⌊q⌋ else -⌊-q⌋

/-! ## sandbox/docker_sandbox.py and sandbox/daytona_sandbox.py -/

/-- Kinds of Python exception distinguished by the embedded methods. -/
inductive PyError
  | runtimeError (msg : String)
  | fileNotFound (msg : String)
  | other (msg : String)
deriving DecidableEq

/-- State of a `DockerSandbox` instance: the `_container` and `_client`
handles (opaque engine handles are modelled as `Nat` ids). -/
structure DockerState where
  container : Option Nat
  client : Option Nat
deriving DecidableEq

/-- State of a `DaytonaSandbox` instance: the `_sandbox` and `_client`
handles. -/
structure DaytonaState where
  sandbox : Option Nat
  client : Option Nat
deriving DecidableEq

/-- Possible outcomes of the engine-side portion of
`DockerSandbox.run_command` (what happens inside the `try` block once the
exec call is dispatched): the exec call returned with an exit code and
demuxed (already decoded) streams, the outer `asyncio.wait_for` raised
`TimeoutError`, the SDK raised `ContainerError`, or some other exception
escaped. -/
inductive ExecOutcome
  | completed (exit_code : Int) (stdout stderr : String)
  | asyncioTimeout
  | containerError (exit_status : Int) (msg : String)
  | engineError (msg : String)
deriving DecidableEq

/-- Embedding of the in-container wrapper built by `DockerSandbox.run_command`:
`f"timeout {int(timeout)} /bin/bash -c {shlex.quote(command)}"`. -/
def wrapped_command (timeout : ℚ) (command : String) : String :=
  "timeout " ++ toString (pyInt timeout) ++ " /bin/bash -c " ++
    shlex_quote command

/-- Caller-side bound passed to `asyncio.wait_for` by
`DockerSandbox.run_command`: `timeout + 5`. -/
def asyncio_wait_bound (timeout : ℚ) : ℚ := timeout + 5

/-- Embedding of `DockerSandbox.run_command`'s result handling.  `timeout` is
modelled as a natural number of seconds (for integral timeouts Python's
`int(timeout)` is the identity and both f-strings render the same digits;
the fractional-timeout behaviour of the wrapper itself is captured by
`wrapped_command`).  A `None` container handle raises
`RuntimeError("Sandbox not started")`; exit code 124 from the in-container
`timeout` utility is translated into the distinguished timed-out result;
`asyncio.wait_for` expiry and every other exception are converted to
returned results by the `except` clauses. -/
def dockerRunCommand (s : DockerState) (timeout : Nat) (outcome : ExecOutcome) :
    Except PyError CommandResult :=
  match s.container with
  | none => .error (.runtimeError "Sandbox not started")
  | some _ =>
    match outcome with
    | .completed ec out err =>
      if ec = 124 then
        .ok ⟨-1, out,
          pyStrip ("Command timed out after " ++ toString timeout ++
            " seconds\n" ++ err)⟩
      else .ok ⟨ec, out, err⟩
    | .asyncioTimeout =>
      .ok ⟨-1, "", "Command timed out after " ++ toString timeout ++ " seconds"⟩
    | .containerError es m => .ok ⟨es, "", m⟩
    | .engineError m => .ok ⟨-1, "", m⟩

/-- Possible outcomes of the engine-side portion of
`DaytonaSandbox.run_command`: the SDK's `process.exec` returned (with
`result.result` possibly `None`), the outer `asyncio.wait_for` raised
`TimeoutError`, or some other exception escaped. -/
inductive DaytonaExecOutcome
  | completed (exit_code : Int) (result : Option String)
  | asyncioTimeout
  | dispatchError (msg : String)
deriving DecidableEq

/-- Embedding of `DaytonaSandbox.run_command`'s result handling, with the same
conventions as `dockerRunCommand`.  `stdout` is
`result.result if result.result else ""` (falsy `None` and `""` collapse to
`""`), `stderr` is always empty in the completed case. -/
def daytonaRunCommand (s : DaytonaState) (timeout : Nat)
    (outcome : DaytonaExecOutcome) : Except PyError CommandResult :=
  match s.sandbox with
  | none => .error (.runtimeError "Sandbox not started")
  | some _ =>
    match outcome with
    | .completed ec r =>
      .ok ⟨ec, (match r with | some v => if v = "" then "" else v | none => ""), ""⟩
    | .asyncioTimeout =>
      .ok ⟨-1, "", "Command timed out after " ++ toString timeout ++ " seconds"⟩
    | .dispatchError m => .ok ⟨-1, "", m⟩

/-- Outcome of the engine call inside `DockerSandbox.read_file`. -/
inductive ReadOutcome
  | ok (content : String)
  | notFound
  | failure (msg : String)
deriving DecidableEq

/-- Embedding of `DockerSandbox.read_file`: not-started check, then the
archive fetch; `NotFound` is re-raised as `FileNotFoundError`, other
exceptions propagate. -/
def dockerReadFile (s : DockerState) (path : String) (outcome : ReadOutcome) :
    Except PyError String :=
  match s.container with
  | none => .error (.runtimeError "Sandbox not started")
  | some _ =>
    match outcome with
    | .ok content => .ok content
    | .notFound => .error (.fileNotFound ("File not found: " ++ path))
    | .failure m => .error (.other m)

/-- Outcome of the engine calls inside a `write_file` implementation. -/
inductive WriteOutcome
  | ok
  | failure (msg : String)
deriving DecidableEq

/-- Embedding of `DockerSandbox.write_file`: not-started check, then the tar
upload; exceptions propagate. -/
def dockerWriteFile (s : DockerState) (outcome : WriteOutcome) :
    Except PyError Unit :=
  match s.container with
  | none => .error (.runtimeError "Sandbox not started")
  | some _ =>
    match outcome with
    | .ok => .ok ()
    | .failure m => .error (.other m)

/-- Embedding of `DaytonaSandbox.read_file`: not-started check, then the SDK
download; an error whose text mentions "not found" is re-raised as
`FileNotFoundError` (the outcome constructor carries that distinction),
other exceptions propagate. -/
def daytonaReadFile (s : DaytonaState) (path : String) (outcome : ReadOutcome) :
    Except PyError String :=
  match s.sandbox with
  | none => .error (.runtimeError "Sandbox not started")
  | some _ =>
    match outcome with
    | .ok content => .ok content
    | .notFound => .error (.fileNotFound ("File not found: " ++ path))
    | .failure m => .error (.other m)

/-- Embedding of `DaytonaSandbox.write_file`: not-started check, then the SDK
upload; exceptions propagate. -/
def daytonaWriteFile (s : DaytonaState) (outcome : WriteOutcome) :
    Except PyError Unit :=
  match s.sandbox with
  | none => .error (.runtimeError "Sandbox not started")
  | some _ =>
    match outcome with
    | .ok => .ok ()
    | .failure m => .error (.other m)

/-- Outcome of `container.remove(force=True)` inside `DockerSandbox.cleanup`. -/
inductive RemoveOutcome
  | ok
  | notFound
  | failure (msg : String)
deriving DecidableEq

/-- Embedding of `DockerSandbox.cleanup`: when `_container` is falsy the body
is skipped entirely (no engine call); otherwise the container is removed
(`NotFound` also clears the handle), exceptions re-raise, and the `finally`
block always closes and clears the client.  The returned triple is the new
state, the raised-or-returned outcome, and whether the engine was called. -/
def dockerCleanup (s : DockerState) (outcome : RemoveOutcome) :
    DockerState × Except PyError Unit × Bool :=
  match s.container with
  | none => (s, .ok (), false)
  | some _ =>
    match outcome with
    | .ok => (⟨none, none⟩, .ok (), true)
    | .notFound => (⟨none, none⟩, .ok (), true)
    | .failure m => (⟨s.container, none⟩, .error (.other m), true)

/-- Embedding of `DaytonaSandbox.cleanup`: when `_sandbox` is falsy the body
is skipped (no API call); otherwise the sandbox is deleted, exceptions
re-raise, and the `finally` block clears the client. -/
def daytonaCleanup (s : DaytonaState) (outcome : Option String) :
    DaytonaState × Except PyError Unit × Bool :=
  match s.sandbox with
  | none => (s, .ok (), false)
  | some _ =>
    match outcome with
    | none => (⟨none, none⟩, .ok (), true)
    | some m => (⟨s.sandbox, none⟩, .error (.other m), true)

/-! ## tools/sandbox/file_ops.py : path validation

The source composes `posixpath.normpath` with `pathlib.PurePosixPath`
parsing.  Both are embedded at the level of character lists, with an explicit
split/join on `'/'` (Python's `str.split('/')` / `'/'.join`). -/

/-- Embedding of Python `s.split(sep)` for a single character separator:
always returns at least one (possibly empty) chunk, chunks never contain the
separator. -/
def splitChar (sep : Char) : List Char → List (List Char)
  | [] => [[]]
  | c :: cs =>
    if c = sep then [] :: splitChar sep cs
    else
      match splitChar sep cs with
      | [] => [[c]]
      | g :: gs => (c :: g) :: gs

/-- Embedding of Python `sep.join(chunks)` for a single character separator. -/
def joinChar (sep : Char) : List (List Char) → List Char
  | [] => []
  | [g] => g
  | g :: gs => g ++ sep :: joinChar sep gs

/-- Embedding of the root-parsing part of `posixpath.splitroot` (which
`normpath` and `PurePosixPath` parsing both rely on): one leading slash, or
three or more, give root `/`; exactly two give root `//`; anything else is
relative.  Returns the root and the remainder. -/
def rootSlashes : List Char → List Char × List Char
  | [] => ([], [])
  | c :: rest =>
    if c ≠ '/' then ([], c :: rest)
    else
      match rest with
      | [] => (['/'], [])
      | c2 :: rest2 =>
        if c2 ≠ '/' then (['/'], rest)
        else
          match rest2 with
          | [] => (['/', '/'], [])
          | c3 :: _ => if c3 = '/' then (['/'], rest) else (['/', '/'], rest2)

/-- One step of the component loop of `posixpath.normpath`: skip empty and
`.` components; keep a component (also `..` when the path is relative and
nothing precedes it, or the previous kept component is `..`); otherwise `..`
pops the previous component when there is one. -/
def normStep (absRoot : Bool) (acc : List (List Char)) (comp : List Char) :
    List (List Char) :=
  if comp = [] ∨ comp = ['.'] then acc
  else if comp ≠ ['.', '.'] ∨ (¬absRoot ∧ acc = []) ∨
      (acc ≠ [] ∧ acc.getLast? = some ['.', '.']) then
    acc ++ [comp]
  else if acc ≠ [] then acc.dropLast
  else acc

/-- Component loop of `posixpath.normpath` over all split components. -/
def normComps (absRoot : Bool) (comps : List (List Char)) : List (List Char) :=
  comps.foldl (normStep absRoot) []

/-- List-level embedding of `posixpath.normpath`. -/
def normpathL (l : List Char) : List Char :=
  if l = [] then ['.']
  else
    let sr := rootSlashes l
    let comps := normComps (sr.1 ≠ []) (splitChar '/' sr.2)
    let out := sr.1 ++ joinChar '/' comps
    if out = [] then ['.'] else out

/-- Embedding of `posixpath.normpath` on strings. -/
def normpath (s : String) : String := ⟨normpathL s.data⟩

/-- Embedding of `PurePosixPath` parsing of a path string: the root (empty
for relative paths) and the parts, dropping empty and `.` components. -/
def parsePosixL (l : List Char) : List Char × List (List Char) :=
  let sr := rootSlashes l
  (sr.1, (splitChar '/' sr.2).filter (fun g => g ≠ [] && g ≠ ['.']))

/-- Embedding of the `parents` sequence of a parsed `PurePosixPath`: all
proper prefixes of the parts, with the same root. -/
def parentsL (root : List Char) (parts : List (List Char)) :
    List (List Char × List (List Char)) :=
  (List.range parts.length).map (fun i => (root, parts.take i))

/-- Embedding of `str` / `as_posix` of a parsed `PurePosixPath`. -/
def asPosixL (root : List Char) (parts : List (List Char)) : String :=
  if root = [] && parts = [] then "." else ⟨root ++ joinChar '/' parts⟩

/-- Embedding of `ALLOWED_BASE_PATHS = (PurePosixPath("/workspace"),)`, as a
parsed path. -/
def allowedBase : List Char × List (List Char) := (['/'], ["workspace".data])

/-- Error message for non-absolute paths in `_validate_path`. -/
def mustBeAbsoluteMsg (path : String) : String :=
  "Path must be absolute, got: '" ++ path ++ "'"

/-- Error message for paths outside the allowed roots in `_validate_path`
(Python renders the list comprehension as `['/workspace']`). -/
def outsideAllowedMsg (path : String) : String :=
  "Path '" ++ path ++ "' is outside allowed directories. Allowed: ['/workspace']"

/-- Embedding of `_validate_path(path)` from `tools/sandbox/file_ops.py`:
normalize with `posixpath.normpath`, parse as `PurePosixPath`, require an
absolute path, then accept exactly when the parsed path equals an allowed
base or an allowed base occurs among its parents.  `ValueError` becomes the
`Except.error` branch carrying the exception message. -/
def validate_path (path : String) : Except String String :=
  let np := normpathL path.data
  let pr := parsePosixL np
  if pr.1 = [] then .error (mustBeAbsoluteMsg path)
  else if pr = allowedBase ∨ allowedBase ∈ parentsL pr.1 pr.2 then
    .ok (asPosixL pr.1 pr.2)
  else .error (outsideAllowedMsg path)

/-! ## tools/sandbox/file_ops.py : the read/write tools -/

/-- Errors the underlying sandbox contract can raise into the tool layer. -/
inductive SbError
  | fileNotFound
  | other (msg : String)
deriving DecidableEq

/-- Shape of the dictionary returned by the file tools (absent keys are
`none`). -/
structure ToolResponse where
  status : String
  content : Option String := none
  path : Option String := none
  size : Option Nat := none
  error : Option String := none
deriving DecidableEq

/-- Embedding of `read_file(executor, path)` from `file_ops.py`.  The
executor's sandbox is abstracted as the function `sandboxRead`; the second
component of the result records whether the underlying contract's
`read_file` was invoked.  `executor.truncate` is `truncate_output` at the
executor's `max_output_chars`. -/
def tool_read_file (sandboxRead : String → Except SbError String)
    (maxChars : Nat) (path : String) : ToolResponse × Bool :=
  match validate_path path with
  | .error e => ({ status := "error", error := some e }, false)
  | .ok validated =>
    match sandboxRead validated with
    | .ok content =>
      ({ status := "success", content := some (truncate_output content maxChars),
         path := some validated }, true)
    | .error .fileNotFound =>
      ({ status := "error", error := some ("File not found: " ++ path) }, true)
    | .error (.other m) => ({ status := "error", error := some m }, true)

/-- Embedding of `write_file(executor, path, content)` from `file_ops.py`,
with the same conventions as `tool_read_file` (sandbox-raised errors are
stringified by the final `except Exception` clause). -/
def tool_write_file (sandboxWrite : String → String → Except SbError Unit)
    (path content : String) : ToolResponse × Bool :=
  match validate_path path with
  | .error e => ({ status := "error", error := some e }, false)
  | .ok validated =>
    match sandboxWrite validated content with
    | .ok () =>
      ({ status := "success", path := some validated,
         size := some content.length }, true)
    | .error .fileNotFound =>
      ({ status := "error", error := some "FileNotFoundError" }, true)
    | .error (.other m) => ({ status := "error", error := some m }, true)

/-! ## Auxiliary decidable string predicates used in the statements -/

/-- Boolean test that `pat` is a leading segment of `l`. -/
def leadsWith : List Char → List Char → Bool
  | [], _ => true
  | _ :: _, [] => false
  | a :: as, b :: bs => a == b && leadsWith as bs

/-- Boolean test that `pat` occurs contiguously inside `l`. -/
def occursIn (pat : List Char) : List Char → Bool
  | [] => leadsWith pat []
  | c :: cs => leadsWith pat (c :: cs) || occursIn pat cs

/-- Concrete sandbox contract stub used in closed instances of the file-tool
theorems (its behaviour is irrelevant there: the statements concern paths the
tools reject before reaching it). -/
def stubRead : String → Except SbError String := fun _ => .error .fileNotFound

/-- Concrete sandbox contract stub for the write side. -/
def stubWrite : String → String → Except SbError Unit := fun _ _ => .ok ()

/-- Invariant of the components produced by `normComps`: nonempty, not `.`,
and slash-free. -/
def goodComp (g : List Char) : Prop := g ≠ [] ∧ g ≠ ['.'] ∧ '/' ∉ g

/-! ## Theorems -/

theorem leadsWith_append (a t : List Char) : leadsWith a (a ++ t) = true := by
  induction a with
  | nil => rfl
  | cons c cs ih => simp [leadsWith, ih]

theorem pyStripL_append_leads (a b : List Char) (c d : Char)
    (hhead : a.head? = some c) (hc : isPySpace c = false)
    (hlast : a.getLast? = some d) (hd : isPySpace d = false) :
    ∃ t, pyStripL (a ++ b) = a ++ t := by
  obtain ⟨a', rfl⟩ : ∃ a', a = c :: a' := by
    cases a with
    | nil => exact Option.noConfusion hhead
    | cons x xs =>
      cases hhead
      exact ⟨xs, rfl⟩
  unfold pyStripL
  have h1 : List.dropWhile isPySpace (c :: a' ++ b) = c :: a' ++ b := by
    simp [List.dropWhile_cons, hc]
  rw [h1]
  rw [show (c :: a' ++ b).reverse = b.reverse ++ (c :: a').reverse from
    List.reverse_append _ _]
  rw [List.dropWhile_append]
  by_cases hb : (List.dropWhile isPySpace b.reverse).isEmpty = true
  · rw [if_pos hb]
    have hrev : (c :: a').reverse.head? = some d := by
      rw [List.head?_reverse]
      exact hlast
    obtain ⟨r', hr⟩ : ∃ r', (c :: a').reverse = d :: r' := by
      cases hrev2 : (c :: a').reverse with
      | nil =>
        rw [hrev2] at hrev
        exact Option.noConfusion hrev
      | cons x xs =>
        rw [hrev2] at hrev
        cases hrev
        exact ⟨xs, rfl⟩
    rw [hr]
    rw [show List.dropWhile isPySpace (d :: r') = d :: r' by
      simp [List.dropWhile_cons, hd]]
    rw [← hr, List.reverse_reverse]
    exact ⟨[], by rw [List.append_nil]⟩
  · rw [if_neg hb]
    rw [List.reverse_append, List.reverse_reverse]
    exact ⟨(List.dropWhile isPySpace b.reverse).reverse, rfl⟩

/-- C5: for every `CommandResult`, the derived `success` flag is true exactly
when `exit_code` is zero (hence false for every non-zero exit code, `-1`
included), and `to_dict` reports the same `success` value. -/
theorem command_result_success_iff (r : CommandResult) :
    (r.success = true ↔ r.exit_code = 0) ∧ r.to_dict.success = r.success := by
  refine ⟨?_, rfl⟩
  simp [CommandResult.success]

/-- C10: `truncate_output` is the identity on any text of length at most
`max_chars`; the marker is appended only above the limit. -/
theorem truncate_output_identity_within_limit (text : String) (max_chars : Nat)
    (h : text.length ≤ max_chars) : truncate_output text max_chars = text := by
  simp [truncate_output, Nat.not_lt.mpr h]

theorem truncate_output_identity_within_limit_witness :
    ("abc" : String).length ≤ 5 ∧ truncate_output "abc" 5 = "abc" :=
  ⟨by decide, truncate_output_identity_within_limit "abc" 5 (by decide)⟩

theorem length_truncMarker (n : Nat) :
    (truncMarker n).length = 30 + (toString n).length := by
  unfold truncMarker
  rw [String.length_append, String.length_append]
  have h1 : ("\n... (truncated, " : String).length = 17 := rfl
  have h2 : (" total chars)" : String).length = 13 := rfl
  rw [h1, h2]
  omega

set_option maxRecDepth 4000 in
/-- C2 (counterexample): re-truncating a truncated output is not a no-op:
the second application truncates again and installs a marker reporting the
first output's length. -/
theorem truncate_retruncate_not_noop_cex :
    truncate_output "0123456789" 5 = "01234\n... (truncated, 10 total chars)" ∧
    truncate_output (truncate_output "0123456789" 5) 5 =
      "01234\n... (truncated, 37 total chars)" ∧
    truncate_output (truncate_output "0123456789" 5) 5 ≠
      truncate_output "0123456789" 5 := by
  refine ⟨by decide, by decide, by decide⟩

/-- C2 (amended): for text strictly longer than `max_chars` the truncated
output has length exactly `max_chars + len(marker)`, the marker reporting the
original total character count; applying `truncate_output` again truncates
again, keeping the same first `max_chars` characters but installing a marker
that reports the first output's length (so the second application is a no-op
only when that marker happens to coincide with the first). -/
theorem truncate_output_length_and_retruncate (text : String) (m : Nat)
    (h : m < text.length) :
    (truncate_output text m).length = m + (truncMarker text.length).length ∧
    truncate_output (truncate_output text m) m =
      pyTake text m ++ truncMarker (m + (truncMarker text.length).length) := by
  have hout : truncate_output text m = pyTake text m ++ truncMarker text.length := by
    unfold truncate_output
    rw [if_pos h]
  have hlen_take : (pyTake text m).length = m := by
    have h2 : (pyTake text m).length = min m text.data.length := by
      show (text.data.take m).length = min m text.data.length
      exact List.length_take m text.data
    rw [h2]
    exact Nat.min_eq_left (Nat.le_of_lt h)
  have hlen : (truncate_output text m).length =
      m + (truncMarker text.length).length := by
    rw [hout, String.length_append, hlen_take]
  refine ⟨hlen, ?_⟩
  have hmpos : 0 < (truncMarker text.length).length := by
    rw [length_truncMarker]; omega
  have hgt : m < (pyTake text m ++ truncMarker text.length).length := by
    rw [String.length_append, hlen_take]; omega
  have hre : truncate_output (pyTake text m ++ truncMarker text.length) m =
      pyTake (pyTake text m ++ truncMarker text.length) m ++
        truncMarker (pyTake text m ++ truncMarker text.length).length := by
    unfold truncate_output
    rw [if_pos hgt]
  have htake : pyTake (pyTake text m ++ truncMarker text.length) m =
      pyTake text m := by
    show (⟨(text.data.take m ++ (truncMarker text.length).data).take m⟩ : String) =
      (⟨text.data.take m⟩ : String)
    have hlt : (text.data.take m).length = m := hlen_take
    rw [List.take_append_eq_append_take, hlt, List.take_take, Nat.min_self,
      Nat.sub_self, List.take_zero, List.append_nil]
  have hlen2 : (pyTake text m ++ truncMarker text.length).length =
      m + (truncMarker text.length).length := by
    rw [String.length_append, hlen_take]
  rw [hout, hre, htake, hlen2]

theorem truncate_output_length_and_retruncate_witness :
    5 < ("0123456789" : String).length ∧
    (truncate_output "0123456789" 5).length =
      5 + (truncMarker ("0123456789" : String).length).length ∧
    truncate_output (truncate_output "0123456789" 5) 5 =
      pyTake "0123456789" 5 ++
        truncMarker (5 + (truncMarker ("0123456789" : String).length).length) := by
  have h := truncate_output_length_and_retruncate "0123456789" 5 (by decide)
  exact ⟨by decide, h.1, h.2⟩

theorem passOne_ne_eq (host env : String → Option String) (a name : String)
    (hna : name ≠ a) : passOne host env a name = env name := by
  unfold passOne
  by_cases he : env a = none
  · rw [if_pos he]
    cases hh : host a with
    | none => rfl
    | some w =>
      show (if w = "" then env else envInsert env a w) name = env name
      by_cases hw : w = ""
      · rw [if_pos hw]
      · rw [if_neg hw]
        simp [envInsert, hna]
  · rw [if_neg he]

theorem passOne_none_of (host env : String → Option String) (a name : String)
    (h : passOne host env a name = none) : env name = none := by
  by_cases hna : name = a
  · subst hna
    unfold passOne at h
    by_cases he : env name = none
    · exact he
    · rwa [if_neg he] at h
  · rwa [passOne_ne_eq host env a name hna] at h

theorem passOne_some_of (host env : String → Option String) (a name v : String)
    (h : env name = some v) : passOne host env a name = some v := by
  by_cases hna : name = a
  · subst hna
    unfold passOne
    rw [if_neg (by rw [h]; exact fun hc => Option.noConfusion hc)]
    exact h
  · rw [passOne_ne_eq host env a name hna]
    exact h

theorem passOne_sets (host env : String → Option String) (a v : String)
    (hnone : env a = none) (hh : host a = some v) (hne : v ≠ "") :
    passOne host env a a = some v := by
  unfold passOne
  rw [if_pos hnone, hh]
  show (if v = "" then env else envInsert env a v) a = some v
  rw [if_neg hne]
  simp [envInsert]

theorem foldl_passOne_lookup (host : String → Option String)
    (vars : List String) :
    ∀ (env : String → Option String) (name v : String),
      (vars.foldl (passOne host) env) name = some v ↔
        (env name = some v ∨
          (name ∈ vars ∧ env name = none ∧ host name = some v ∧ v ≠ "")) := by
  induction vars with
  | nil => intro env name v; simp
  | cons a l ih =>
    intro env name v
    rw [List.foldl_cons, ih]
    constructor
    · rintro (h | ⟨hmem, hnone, hh, hne⟩)
      · -- the entry was already present after the first step
        by_cases hna : name = a
        · subst hna
          unfold passOne at h
          by_cases he : env name = none
          · rw [if_pos he] at h
            cases hhost : host name with
            | none =>
              rw [hhost] at h
              have h2 : env name = some v := h
              rw [he] at h2
              exact Option.noConfusion h2
            | some w =>
              rw [hhost] at h
              have h2 : (if w = "" then env else envInsert env name w) name =
                  some v := h
              by_cases hw : w = ""
              · rw [if_pos hw] at h2
                rw [he] at h2
                exact Option.noConfusion h2
              · rw [if_neg hw] at h2
                have hwv : w = v := by simpa [envInsert] using h2
                subst hwv
                exact Or.inr ⟨List.mem_cons_self name l, he, rfl, hw⟩
          · rw [if_neg he] at h
            exact Or.inl h
        · rw [passOne_ne_eq host env a name hna] at h
          exact Or.inl h
      · -- the entry was set later in the fold
        exact Or.inr ⟨List.mem_cons_of_mem a hmem,
          passOne_none_of host env a name hnone, hh, hne⟩
    · rintro (h | ⟨hmem, hnone, hh, hne⟩)
      · exact Or.inl (passOne_some_of host env a name v h)
      · by_cases hna : name = a
        · subst hna
          exact Or.inl (passOne_sets host env name v hnone hh hne)
        · have hml : name ∈ l := (List.mem_cons.mp hmem).resolve_left hna
          exact Or.inr ⟨hml,
            (passOne_ne_eq host env a name hna).trans hnone, hh, hne⟩

/-- C8: the environment map built by the factory maps `name` to `v` exactly
when either the explicit configuration map does, or `name` is on the
pass-through allow-list (`pass_env_vars`, defaulting to
`DEFAULT_PASS_ENV_VARS = ["TAVILY_API_KEY"]`), is absent from the explicit
map, and the host has the nonempty value `v` for it.  In particular explicit
values are never overridden and host variables off the allow-list never
appear. -/
theorem build_environment_spec (explicit : String → Option String)
    (pass_env_vars : Option (List String)) (host : String → Option String)
    (name v : String) :
    build_environment explicit pass_env_vars host name = some v ↔
      (explicit name = some v ∨
        (name ∈ pass_env_vars.getD DEFAULT_PASS_ENV_VARS ∧
          explicit name = none ∧ host name = some v ∧ v ≠ "")) :=
  foldl_passOne_lookup host (pass_env_vars.getD DEFAULT_PASS_ENV_VARS)
    explicit name v

/-- C4 (counterexample): a dispatch failure (engine/transport error) on a
started sandbox does not raise: both backends return a normal
`CommandResult` with exit code `-1` carrying the stringified exception. -/
theorem dispatch_failure_not_raised_cex :
    dockerRunCommand ⟨some 0, some 0⟩ 120 (.engineError "connection refused") =
      .ok ⟨-1, "", "connection refused"⟩ ∧
    daytonaRunCommand ⟨some 0, some 0⟩ 120 (.dispatchError "connection refused") =
      .ok ⟨-1, "", "connection refused"⟩ :=
  ⟨rfl, rfl⟩

/-- C4 (amended): on a started sandbox a command that cannot be dispatched
yields a returned error-shaped `CommandResult` (exit code `-1`, stderr the
stringified exception) rather than a raised exception, in both backends; a
command that ran and exited with a code other than 124 is passed through
unchanged, its `success` flag true exactly for exit code zero, while the
Docker backend rewrites an in-container exit code of 124 into the
distinguished timed-out result. -/
theorem run_command_dispatch_failure_returns_result
    (sd : DockerState) (sy : DaytonaState) (t : Nat) (m : String)
    (ec : Int) (out err : String)
    (hd : sd.container ≠ none) (hy : sy.sandbox ≠ none) (hec : ec ≠ 124) :
    dockerRunCommand sd t (.engineError m) = .ok ⟨-1, "", m⟩ ∧
    daytonaRunCommand sy t (.dispatchError m) = .ok ⟨-1, "", m⟩ ∧
    dockerRunCommand sd t (.completed ec out err) = .ok ⟨ec, out, err⟩ ∧
    ((⟨ec, out, err⟩ : CommandResult).success = true ↔ ec = 0) ∧
    dockerRunCommand sd t (.completed 124 out err) =
      .ok ⟨-1, out, pyStrip ("Command timed out after " ++ toString t ++
        " seconds\n" ++ err)⟩ := by
  obtain ⟨c, hc⟩ := Option.ne_none_iff_exists'.mp hd
  obtain ⟨y, hyy⟩ := Option.ne_none_iff_exists'.mp hy
  refine ⟨?_, ?_, ?_, ?_, ?_⟩
  · unfold dockerRunCommand
    rw [hc]
  · unfold daytonaRunCommand
    rw [hyy]
  · unfold dockerRunCommand
    rw [hc]
    simp [hec]
  · simp [CommandResult.success]
  · unfold dockerRunCommand
    rw [hc]
    rfl

theorem run_command_dispatch_failure_returns_result_witness :
    ((⟨some 0, some 0⟩ : DockerState).container ≠ none) ∧
    ((7 : Int) ≠ 124) ∧
    dockerRunCommand ⟨some 0, some 0⟩ 120 (.engineError "boom") =
      .ok ⟨-1, "", "boom"⟩ ∧
    daytonaRunCommand ⟨some 1, some 1⟩ 120 (.dispatchError "boom") =
      .ok ⟨-1, "", "boom"⟩ ∧
    dockerRunCommand ⟨some 0, some 0⟩ 120 (.completed 7 "o" "e") =
      .ok ⟨7, "o", "e"⟩ ∧
    ((⟨7, "o", "e"⟩ : CommandResult).success = true ↔ (7 : Int) = 0) ∧
    dockerRunCommand ⟨some 0, some 0⟩ 120 (.completed 124 "o" "e") =
      .ok ⟨-1, "o", pyStrip ("Command timed out after " ++ toString 120 ++
        " seconds\n" ++ "e")⟩ := by
  have h := run_command_dispatch_failure_returns_result ⟨some 0, some 0⟩
    ⟨some 1, some 1⟩ 120 "boom" 7 "o" "e" (by decide) (by decide) (by decide)
  exact ⟨by decide, by decide, h.1, h.2.1, h.2.2.1, h.2.2.2.1, h.2.2.2.2⟩

/-- C6: with a cleared instance handle (before `start()` completes, or after
`cleanup()` has cleared it) every command and file operation of both backends
raises the distinguishable `RuntimeError("Sandbox not started")` instead of
silently no-opping or returning a normal result. -/
theorem ops_before_start_raise
    (sd : DockerState) (sy : DaytonaState)
    (hd : sd.container = none) (hy : sy.sandbox = none)
    (t t' : Nat) (oc : ExecOutcome) (od : DaytonaExecOutcome)
    (ro ro' : ReadOutcome) (wo wo' : WriteOutcome) (p p' : String) :
    dockerRunCommand sd t oc = .error (.runtimeError "Sandbox not started") ∧
    dockerReadFile sd p ro = .error (.runtimeError "Sandbox not started") ∧
    dockerWriteFile sd wo = .error (.runtimeError "Sandbox not started") ∧
    daytonaRunCommand sy t' od = .error (.runtimeError "Sandbox not started") ∧
    daytonaReadFile sy p' ro' = .error (.runtimeError "Sandbox not started") ∧
    daytonaWriteFile sy wo' = .error (.runtimeError "Sandbox not started") := by
  refine ⟨?_, ?_, ?_, ?_, ?_, ?_⟩
  · unfold dockerRunCommand; rw [hd]
  · unfold dockerReadFile; rw [hd]
  · unfold dockerWriteFile; rw [hd]
  · unfold daytonaRunCommand; rw [hy]
  · unfold daytonaReadFile; rw [hy]
  · unfold daytonaWriteFile; rw [hy]

theorem ops_before_start_raise_witness :
    ((⟨none, none⟩ : DockerState).container = none) ∧
    dockerRunCommand ⟨none, none⟩ 120 .asyncioTimeout =
      .error (.runtimeError "Sandbox not started") ∧
    dockerReadFile ⟨none, none⟩ "/workspace/a" (.ok "x") =
      .error (.runtimeError "Sandbox not started") ∧
    daytonaRunCommand ⟨none, none⟩ 120 .asyncioTimeout =
      .error (.runtimeError "Sandbox not started") := by
  have h := ops_before_start_raise ⟨none, none⟩ ⟨none, none⟩ rfl rfl
    120 120 .asyncioTimeout .asyncioTimeout (.ok "x") (.ok "x") .ok .ok
    "/workspace/a" "/workspace/a"
  exact ⟨rfl, h.1, h.2.1, h.2.2.2.1⟩

/-- C7: after a successful `cleanup()` the instance handle is cleared, so a
second `cleanup()` is a no-op on both backends: the state is unchanged, no
engine/API call is made (third component `false`) and nothing is raised. -/
theorem cleanup_twice_noop
    (sd : DockerState) (sy : DaytonaState) (o1 o2 : RemoveOutcome)
    (d1 d2 : Option String)
    (h1 : (dockerCleanup sd o1).2.1 = .ok ())
    (h2 : (daytonaCleanup sy d1).2.1 = .ok ()) :
    dockerCleanup (dockerCleanup sd o1).1 o2 =
      ((dockerCleanup sd o1).1, .ok (), false) ∧
    daytonaCleanup (daytonaCleanup sy d1).1 d2 =
      ((daytonaCleanup sy d1).1, .ok (), false) := by
  constructor
  · cases hc : sd.container with
    | none => simp [dockerCleanup, hc]
    | some c =>
      cases o1 with
      | ok => simp [dockerCleanup, hc]
      | notFound => simp [dockerCleanup, hc]
      | failure m =>
        exfalso
        simp [dockerCleanup, hc] at h1
  · cases hs : sy.sandbox with
    | none => simp [daytonaCleanup, hs]
    | some c =>
      cases d1 with
      | none => simp [daytonaCleanup, hs]
      | some m =>
        exfalso
        simp [daytonaCleanup, hs] at h2

theorem cleanup_twice_noop_witness :
    ((dockerCleanup ⟨some 3, some 3⟩ .ok).2.1 = .ok ()) ∧
    dockerCleanup (dockerCleanup ⟨some 3, some 3⟩ .ok).1 .ok =
      ((dockerCleanup ⟨some 3, some 3⟩ .ok).1, .ok (), false) ∧
    daytonaCleanup (daytonaCleanup ⟨some 3, some 3⟩ none).1 none =
      ((daytonaCleanup ⟨some 3, some 3⟩ none).1, .ok (), false) := by
  have h := cleanup_twice_noop ⟨some 3, some 3⟩ ⟨some 3, some 3⟩ .ok .ok
    none none rfl rfl
  exact ⟨rfl, h.1, h.2⟩

/-- C9: the in-container wrapper built by `DockerSandbox.run_command` is
exactly `timeout int(t) /bin/bash -c <shell-quoted command>` and the
caller-side `asyncio` bound is `t + 5`; for any fractional timeout
`0 < t < 1` the truncation `int(t)` is zero, so the wrapper degenerates to
`timeout 0 ...` (which the `timeout` utility treats as no time limit),
leaving only the caller-side bound. -/
theorem wrapped_command_fractional_timeout (t : ℚ) (command : String)
    (h0 : 0 < t) (h1 : t < 1) :
    wrapped_command t command =
      "timeout 0 /bin/bash -c " ++ shlex_quote command ∧
    asyncio_wait_bound t = t + 5 ∧
    pyInt t = 0 := by
  have hz : pyInt t = 0 := by
    unfold pyInt
    rw [if_pos (le_of_lt h0), Int.floor_eq_zero_iff]
    constructor
    · exact le_of_lt h0
    · exact h1
  refine ⟨?_, rfl, hz⟩
  unfold wrapped_command
  rw [hz]
  have hlit : ("timeout " ++ toString (0 : Int) ++ " /bin/bash -c " : String) =
      "timeout 0 /bin/bash -c " := by decide
  rw [hlit]

theorem wrapped_command_fractional_timeout_witness :
    (0 < (1 / 2 : ℚ)) ∧ ((1 / 2 : ℚ) < 1) ∧
    wrapped_command (1 / 2) "echo hi" = "timeout 0 /bin/bash -c 'echo hi'" ∧
    asyncio_wait_bound (1 / 2) = 1 / 2 + 5 := by
  have h := wrapped_command_fractional_timeout (1 / 2) "echo hi"
    (by norm_num) (by norm_num)
  refine ⟨by norm_num, by norm_num, ?_, h.2.1⟩
  rw [h.1]
  decide

theorem pyStrip_timeout_pat (ts err : String) :
    ∃ t, pyStripL (("Command timed out after " ++ ts ++ " seconds").data ++
        ('\n' :: err.data)) =
      ("Command timed out after " ++ ts ++ " seconds").data ++ t := by
  apply pyStripL_append_leads _ _ 'C' 's'
  · rfl
  · decide
  · show ((("Command timed out after " : String).data ++ ts.data) ++
      (" seconds" : String).data).getLast? = some 's'
    rw [List.getLast?_append_of_ne_nil _ (by decide)]
    rfl
  · decide

/-- C3: on a started sandbox a timed-out execution returns (never raises) the
distinguished result: exit code `-1` and a stderr that begins with
`Command timed out after <timeout> seconds`, reporting the configured
timeout; this covers the caller-side `asyncio` expiry on both backends and,
in the Docker backend, the translation of the in-container `timeout`
utility's exit code 124 into the same distinguished result instead of a
pass-through. -/
theorem run_command_timeout_distinguished
    (sd : DockerState) (sy : DaytonaState) (t : Nat) (out err : String)
    (hd : sd.container ≠ none) (hy : sy.sandbox ≠ none) :
    dockerRunCommand sd t .asyncioTimeout =
      .ok ⟨-1, "", "Command timed out after " ++ toString t ++ " seconds"⟩ ∧
    daytonaRunCommand sy t .asyncioTimeout =
      .ok ⟨-1, "", "Command timed out after " ++ toString t ++ " seconds"⟩ ∧
    dockerRunCommand sd t (.completed 124 out err) =
      .ok ⟨-1, out, pyStrip ("Command timed out after " ++ toString t ++
        " seconds\n" ++ err)⟩ ∧
    leadsWith ("Command timed out after " ++ toString t ++ " seconds").data
      (pyStrip ("Command timed out after " ++ toString t ++ " seconds\n" ++
        err)).data = true := by
  obtain ⟨c, hc⟩ := Option.ne_none_iff_exists'.mp hd
  obtain ⟨y, hyy⟩ := Option.ne_none_iff_exists'.mp hy
  refine ⟨?_, ?_, ?_, ?_⟩
  · unfold dockerRunCommand
    rw [hc]
  · unfold daytonaRunCommand
    rw [hyy]
  · unfold dockerRunCommand
    rw [hc]
    rfl
  · obtain ⟨tl, htl⟩ := pyStrip_timeout_pat (toString t) err
    have hdata : ("Command timed out after " ++ toString t ++ " seconds\n" ++
        err).data =
        ("Command timed out after " ++ toString t ++ " seconds").data ++
          ('\n' :: err.data) := by
      show ((("Command timed out after " : String).data ++ (toString t).data) ++
          (" seconds\n" : String).data) ++ err.data =
        ((("Command timed out after " : String).data ++ (toString t).data) ++
          (" seconds" : String).data) ++ ('\n' :: err.data)
      rw [show (" seconds\n" : String).data =
        (" seconds" : String).data ++ ['\n'] from rfl]
      simp [List.append_assoc]
    show leadsWith _ (pyStripL (("Command timed out after " ++ toString t ++
      " seconds\n" ++ err).data)) = true
    rw [hdata, htl]
    exact leadsWith_append _ _

theorem run_command_timeout_distinguished_witness :
    ((⟨some 0, some 0⟩ : DockerState).container ≠ none) ∧
    dockerRunCommand ⟨some 0, some 0⟩ 30 .asyncioTimeout =
      .ok ⟨-1, "", "Command timed out after " ++ toString 30 ++ " seconds"⟩ ∧
    daytonaRunCommand ⟨some 0, some 0⟩ 30 .asyncioTimeout =
      .ok ⟨-1, "", "Command timed out after " ++ toString 30 ++ " seconds"⟩ ∧
    dockerRunCommand ⟨some 0, some 0⟩ 30 (.completed 124 "partial" "") =
      .ok ⟨-1, "partial", pyStrip ("Command timed out after " ++ toString 30 ++
        " seconds\n" ++ "")⟩ ∧
    leadsWith ("Command timed out after " ++ toString 30 ++ " seconds").data
      (pyStrip ("Command timed out after " ++ toString 30 ++ " seconds\n" ++
        "")).data = true := by
  have h := run_command_timeout_distinguished ⟨some 0, some 0⟩ ⟨some 0, some 0⟩
    30 "partial" "" (by decide) (by decide)
  exact ⟨by decide, h.1, h.2.1, h.2.2.1, h.2.2.2⟩

theorem splitChar_ne_nil (sep : Char) (l : List Char) : splitChar sep l ≠ [] := by
  cases l with
  | nil => simp [splitChar]
  | cons c cs =>
    unfold splitChar
    by_cases hc : c = sep
    · simp [hc]
    · rw [if_neg hc]
      cases h : splitChar sep cs <;> simp

theorem splitChar_sep_not_mem (sep : Char) (l : List Char) :
    ∀ g ∈ splitChar sep l, sep ∉ g := by
  induction l with
  | nil =>
    intro g hg
    simp [splitChar] at hg
    subst hg
    simp
  | cons c cs ih =>
    intro g hg
    unfold splitChar at hg
    by_cases hc : c = sep
    · rw [if_pos hc] at hg
      rcases List.mem_cons.mp hg with rfl | hmem
      · simp
      · exact ih g hmem
    · rw [if_neg hc] at hg
      cases hsp : splitChar sep cs with
      | nil => exact absurd hsp (splitChar_ne_nil sep cs)
      | cons g0 gs =>
        rw [hsp] at hg
        rcases List.mem_cons.mp hg with rfl | hmem
        · intro hmem2
          rcases List.mem_cons.mp hmem2 with heq | hmem3
          · exact hc heq.symm
          · exact ih g0 (by rw [hsp]; exact List.mem_cons_self g0 gs) hmem3
        · exact ih g (by rw [hsp]; exact List.mem_cons_of_mem g0 hmem)

theorem splitChar_nosep (sep : Char) (l : List Char) (h : sep ∉ l) :
    splitChar sep l = [l] := by
  induction l with
  | nil => rfl
  | cons c cs ih =>
    have hc : ¬(c = sep) := by
      intro he
      exact h (by rw [← he]; exact List.mem_cons_self c cs)
    unfold splitChar
    rw [if_neg hc, ih (fun hm => h (List.mem_cons_of_mem c hm))]

theorem splitChar_append_sep (sep : Char) (g t : List Char) (h : sep ∉ g) :
    splitChar sep (g ++ sep :: t) = g :: splitChar sep t := by
  induction g with
  | nil =>
    show splitChar sep (sep :: t) = [] :: splitChar sep t
    conv_lhs => unfold splitChar
    rw [if_pos rfl]
  | cons c cs ih =>
    have hc : ¬(c = sep) := by
      intro he
      exact h (by rw [← he]; exact List.mem_cons_self c cs)
    show splitChar sep (c :: (cs ++ sep :: t)) = (c :: cs) :: splitChar sep t
    conv_lhs => unfold splitChar
    rw [if_neg hc, ih (fun hm => h (List.mem_cons_of_mem c hm))]

theorem splitChar_joinChar (sep : Char) (gs : List (List Char)) (hne : gs ≠ [])
    (h : ∀ g ∈ gs, sep ∉ g) : splitChar sep (joinChar sep gs) = gs := by
  induction gs with
  | nil => exact absurd rfl hne
  | cons g gs2 ih =>
    cases gs2 with
    | nil =>
      rw [show joinChar sep [g] = g from rfl]
      exact splitChar_nosep sep g (h g (List.mem_cons_self g []))
    | cons g2 gs3 =>
      rw [show joinChar sep (g :: g2 :: gs3) =
        g ++ sep :: joinChar sep (g2 :: gs3) from rfl]
      rw [splitChar_append_sep sep _ _ (h g (List.mem_cons_self _ _))]
      rw [ih (by simp) (fun x hx => h x (List.mem_cons_of_mem g hx))]

theorem foldl_normStep_good (absRoot : Bool) (comps : List (List Char)) :
    ∀ acc : List (List Char), (∀ g ∈ comps, '/' ∉ g) →
      (∀ g ∈ acc, goodComp g) →
      ∀ g ∈ comps.foldl (normStep absRoot) acc, goodComp g := by
  induction comps with
  | nil =>
    intro acc _ hacc g hg
    exact hacc g hg
  | cons c cs ih =>
    intro acc hcomps hacc g hg
    rw [List.foldl_cons] at hg
    refine ih (normStep absRoot acc c)
      (fun x hx => hcomps x (List.mem_cons_of_mem c hx)) ?_ g hg
    intro x hx
    unfold normStep at hx
    by_cases h1 : c = [] ∨ c = ['.']
    · rw [if_pos h1] at hx
      exact hacc x hx
    · rw [if_neg h1] at hx
      by_cases h2 : c ≠ ['.', '.'] ∨ (¬absRoot = true ∧ acc = []) ∨
          (acc ≠ [] ∧ acc.getLast? = some ['.', '.'])
      · rw [if_pos h2] at hx
        rcases List.mem_append.mp hx with hxa | hxc
        · exact hacc x hxa
        · have hxe : x = c := by simpa using hxc
          subst hxe
          push_neg at h1
          exact ⟨h1.1, h1.2, hcomps x (List.mem_cons_self _ _)⟩
      · rw [if_neg h2] at hx
        by_cases h3 : acc ≠ []
        · rw [if_pos h3] at hx
          exact hacc x ((List.dropLast_sublist acc).subset hx)
        · rw [if_neg h3] at hx
          exact hacc x hx

theorem normComps_good (absRoot : Bool) (l : List Char) :
    ∀ g ∈ normComps absRoot (splitChar '/' l), goodComp g :=
  foldl_normStep_good absRoot (splitChar '/' l) []
    (splitChar_sep_not_mem '/' l) (by simp)

theorem rootSlashes_rel (l : List Char) (h : l.head? ≠ some '/') :
    rootSlashes l = ([], l) := by
  cases l with
  | nil => rfl
  | cons c rest =>
    have hc : c ≠ '/' := by
      intro he
      exact h (by rw [he]; rfl)
    simp only [rootSlashes]
    rw [if_pos hc]

theorem rootSlashes_one (rest : List Char) (h : rest.head? ≠ some '/') :
    rootSlashes ('/' :: rest) = (['/'], rest) := by
  cases rest with
  | nil => decide
  | cons c2 rest2 =>
    have hc2 : c2 ≠ '/' := by
      intro he
      exact h (by rw [he]; rfl)
    simp only [rootSlashes]
    rw [if_neg (fun hh => hh rfl), if_pos hc2]

theorem rootSlashes_two (rest2 : List Char) (h : rest2.head? ≠ some '/') :
    rootSlashes ('/' :: '/' :: rest2) = (['/', '/'], rest2) := by
  cases rest2 with
  | nil => decide
  | cons c3 r3 =>
    have hc3 : c3 ≠ '/' := by
      intro he
      exact h (by rw [he]; rfl)
    simp only [rootSlashes]
    rw [if_neg (fun hh => hh rfl), if_neg (fun hh => hh rfl), if_neg hc3]

theorem rootSlashes_root_cases (l : List Char) :
    (rootSlashes l).1 = [] ∨ (rootSlashes l).1 = ['/'] ∨
      (rootSlashes l).1 = ['/', '/'] := by
  cases l with
  | nil => exact Or.inl rfl
  | cons c rest =>
    by_cases hc : c = '/'
    · subst hc
      cases rest with
      | nil => exact Or.inr (Or.inl (by decide))
      | cons c2 rest2 =>
        by_cases hc2 : c2 = '/'
        · subst hc2
          cases rest2 with
          | nil => exact Or.inr (Or.inr (by decide))
          | cons c3 r3 =>
            by_cases hc3 : c3 = '/'
            · subst hc3
              refine Or.inr (Or.inl ?_)
              simp [rootSlashes]
            · refine Or.inr (Or.inr ?_)
              rw [rootSlashes_two (c3 :: r3)
                (fun hh => hc3 (Option.some.inj hh))]
        · refine Or.inr (Or.inl ?_)
          rw [rootSlashes_one (c2 :: rest2)
            (fun hh => hc2 (Option.some.inj hh))]
    · refine Or.inl ?_
      rw [rootSlashes_rel (c :: rest) (fun hh => hc (Option.some.inj hh))]

theorem allowedBase_mem_parentsL (root : List Char) (parts : List (List Char)) :
    allowedBase ∈ parentsL root parts ↔
      ∃ i, i < parts.length ∧ root = ['/'] ∧
        parts.take i = ["workspace".data] := by
  unfold parentsL
  constructor
  · intro hmem
    obtain ⟨i, hi, heq⟩ := List.mem_map.mp hmem
    have h1 := congrArg Prod.fst heq
    have h2 := congrArg Prod.snd heq
    exact ⟨i, List.mem_range.mp hi, h1, h2⟩
  · rintro ⟨i, hi, hroot, htake⟩
    exact List.mem_map.mpr ⟨i, List.mem_range.mpr hi, by rw [hroot, htake]; rfl⟩

theorem take_eq_single_ws (g : List Char) (gs : List (List Char)) (i : Nat)
    (hi : i < (g :: gs).length)
    (ht : (g :: gs).take i = ["workspace".data]) :
    g = "workspace".data ∧ ∃ g2 gs2, gs = g2 :: gs2 := by
  cases i with
  | zero => simp at ht
  | succ j =>
    rw [List.take_succ_cons] at ht
    injection ht with hg htail
    refine ⟨hg, ?_⟩
    cases hgs : gs with
    | nil =>
      rw [hgs] at hi
      simp at hi
    | cons g2 gs2 => exact ⟨g2, gs2, rfl⟩

theorem accept_structure_core (R : List Char) (nc : List (List Char))
    (hgood : ∀ g ∈ nc, goodComp g)
    (hR : R = [] ∨ R = ['/'] ∨ R = ['/', '/'])
    (hout : R ++ joinChar '/' nc ≠ [])
    (hacc : parsePosixL (R ++ joinChar '/' nc) = allowedBase ∨
      allowedBase ∈ parentsL (parsePosixL (R ++ joinChar '/' nc)).1
        (parsePosixL (R ++ joinChar '/' nc)).2) :
    R ++ joinChar '/' nc = "/workspace".data ∨
      ∃ t, R ++ joinChar '/' nc = "/workspace/".data ++ t := by
  cases nc with
  | nil =>
    rw [show joinChar '/' ([] : List (List Char)) = [] from rfl,
      List.append_nil] at hout hacc ⊢
    rcases hR with rfl | rfl | rfl
    · exact absurd rfl hout
    · exact absurd hacc (by decide)
    · exact absurd hacc (by decide)
  | cons g gs =>
    obtain ⟨hgne, hgdot, hgslash⟩ := hgood g (List.mem_cons_self g gs)
    obtain ⟨gc, g', rfl⟩ : ∃ gc g', g = gc :: g' := by
      cases g with
      | nil => exact absurd rfl hgne
      | cons x xs => exact ⟨x, xs, rfl⟩
    have hgc : gc ≠ '/' := by
      intro he
      exact hgslash (by rw [← he]; exact List.mem_cons_self _ _)
    obtain ⟨tail, hj, htail⟩ : ∃ tail,
        joinChar '/' ((gc :: g') :: gs) = (gc :: g') ++ tail ∧
          ((gs = [] ∧ tail = []) ∨
            (gs ≠ [] ∧ tail = '/' :: joinChar '/' gs)) := by
      cases gs with
      | nil =>
        exact ⟨[], by rw [show joinChar '/' [gc :: g'] = gc :: g' from rfl,
          List.append_nil], Or.inl ⟨rfl, rfl⟩⟩
      | cons g2 gs2 =>
        exact ⟨'/' :: joinChar '/' (g2 :: gs2), rfl, Or.inr ⟨by simp, rfl⟩⟩
    rw [hj] at hacc ⊢
    have hheadne : ((gc :: g') ++ tail).head? ≠ some '/' := by
      rw [List.cons_append]
      intro hh
      simp at hh
      exact hgc hh
    rcases hR with rfl | rfl | rfl
    · -- relative output: its parsed root is empty, so it cannot be accepted
      rw [List.nil_append] at hacc
      have hparse1 : (parsePosixL ((gc :: g') ++ tail)).1 = [] := by
        unfold parsePosixL
        rw [rootSlashes_rel _ hheadne]
      rcases hacc with heq | hmem
      · have h1 := congrArg Prod.fst heq
        rw [hparse1] at h1
        exact absurd h1 (by decide)
      · rw [allowedBase_mem_parentsL] at hmem
        obtain ⟨i, _, hroot, _⟩ := hmem
        rw [hparse1] at hroot
        exact absurd hroot (by decide)
    · -- root "/": the parsed parts are exactly the normalized components
      have hnp2 : (['/'] : List Char) ++ ((gc :: g') ++ tail) =
          '/' :: ((gc :: g') ++ tail) := rfl
      rw [hnp2] at hacc ⊢
      have hrs : rootSlashes ('/' :: ((gc :: g') ++ tail)) =
          (['/'], (gc :: g') ++ tail) := rootSlashes_one _ hheadne
      have hsplit : splitChar '/' ((gc :: g') ++ tail) = (gc :: g') :: gs := by
        rw [← hj]
        refine splitChar_joinChar '/' ((gc :: g') :: gs) (by simp) ?_
        intro x hx
        exact (hgood x hx).2.2
      have hfilter : List.filter (fun g => g ≠ [] && g ≠ ['.'])
          ((gc :: g') :: gs) = (gc :: g') :: gs := by
        rw [List.filter_eq_self]
        intro a ha
        obtain ⟨h1, h2, _⟩ := hgood a ha
        simp [h1, h2]
      have hparse : parsePosixL ('/' :: ((gc :: g') ++ tail)) =
          (['/'], (gc :: g') :: gs) := by
        unfold parsePosixL
        rw [hrs]
        show (['/'], List.filter (fun g => g ≠ [] && g ≠ ['.'])
          (splitChar '/' ((gc :: g') ++ tail))) = _
        rw [hsplit, hfilter]
      rcases hacc with heq | hmem
      · rw [hparse] at heq
        have hsnd := congrArg Prod.snd heq
        have hsnd2 : (gc :: g') :: gs = ["workspace".data] := hsnd
        injection hsnd2 with hg hgs
        left
        rcases htail with ⟨_, htl⟩ | ⟨hgsne, _⟩
        · rw [htl, List.append_nil, hg]
        · exact absurd hgs hgsne
      · rw [hparse] at hmem
        rw [allowedBase_mem_parentsL] at hmem
        obtain ⟨i, hi, _, htake⟩ := hmem
        obtain ⟨hgws, g2, gs2, hgs2⟩ := take_eq_single_ws (gc :: g') gs i hi htake
        right
        rcases htail with ⟨hgs0, _⟩ | ⟨_, htl⟩
        · rw [hgs0] at hgs2
          exact absurd hgs2 (by simp)
        · refine ⟨joinChar '/' gs, ?_⟩
          rw [htl, hgws]
          rw [show ("/workspace/" : String).data =
            '/' :: (("workspace" : String).data ++ ['/']) from rfl]
          simp [List.append_assoc]
    · -- root "//": pathlib keeps the double slash, which never matches "/"
      have hnp2 : (['/', '/'] : List Char) ++ ((gc :: g') ++ tail) =
          '/' :: '/' :: ((gc :: g') ++ tail) := rfl
      rw [hnp2] at hacc ⊢
      have hparse1 : (parsePosixL ('/' :: '/' :: ((gc :: g') ++ tail))).1 =
          ['/', '/'] := by
        unfold parsePosixL
        rw [rootSlashes_two _ hheadne]
      rcases hacc with heq | hmem
      · have h1 := congrArg Prod.fst heq
        rw [hparse1] at h1
        exact absurd h1 (by decide)
      · rw [allowedBase_mem_parentsL] at hmem
        obtain ⟨i, _, hroot, _⟩ := hmem
        rw [hparse1] at hroot
        exact absurd hroot (by decide)

theorem normpath_accept_structure (p : List Char)
    (hacc : parsePosixL (normpathL p) = allowedBase ∨
      allowedBase ∈ parentsL (parsePosixL (normpathL p)).1
        (parsePosixL (normpathL p)).2) :
    normpathL p = "/workspace".data ∨
      ∃ t, normpathL p = "/workspace/".data ++ t := by
  by_cases hp : p = []
  · rw [hp] at hacc
    exact absurd hacc (by decide)
  · have hnp : normpathL p =
        if ((rootSlashes p).1 ++ joinChar '/' (normComps ((rootSlashes p).1 ≠ [])
            (splitChar '/' (rootSlashes p).2))) = []
        then ['.']
        else (rootSlashes p).1 ++ joinChar '/' (normComps ((rootSlashes p).1 ≠ [])
            (splitChar '/' (rootSlashes p).2)) := by
      conv_lhs => unfold normpathL
      rw [if_neg hp]
    by_cases hout : ((rootSlashes p).1 ++ joinChar '/'
        (normComps ((rootSlashes p).1 ≠ []) (splitChar '/' (rootSlashes p).2))) = []
    · rw [if_pos hout] at hnp
      rw [hnp] at hacc
      exact absurd hacc (by decide)
    · rw [if_neg hout] at hnp
      rw [hnp] at hacc ⊢
      exact accept_structure_core (rootSlashes p).1
        (normComps ((rootSlashes p).1 ≠ []) (splitChar '/' (rootSlashes p).2))
        (normComps_good _ _) (rootSlashes_root_cases p) hout hacc

theorem validate_path_rejects (p : String)
    (hne : normpath p ≠ "/workspace")
    (hnd : ∀ t : String, normpath p ≠ "/workspace/" ++ t) :
    validate_path p =
      .error (if (parsePosixL (normpathL p.data)).1 = [] then mustBeAbsoluteMsg p
        else outsideAllowedMsg p) := by
  have hacc : ¬(parsePosixL (normpathL p.data) = allowedBase ∨
      allowedBase ∈ parentsL (parsePosixL (normpathL p.data)).1
        (parsePosixL (normpathL p.data)).2) := by
    intro hacc
    rcases normpath_accept_structure p.data hacc with h | ⟨t, ht⟩
    · exact hne (by unfold normpath; rw [h])
    · refine hnd ⟨t⟩ ?_
      unfold normpath
      rw [ht]
      exact String.ext rfl
  show (if (parsePosixL (normpathL p.data)).1 = [] then
      Except.error (mustBeAbsoluteMsg p)
    else if parsePosixL (normpathL p.data) = allowedBase ∨
        allowedBase ∈ parentsL (parsePosixL (normpathL p.data)).1
          (parsePosixL (normpathL p.data)).2 then
      Except.ok (asPosixL (parsePosixL (normpathL p.data)).1
        (parsePosixL (normpathL p.data)).2)
    else Except.error (outsideAllowedMsg p)) = _
  by_cases hroot : (parsePosixL (normpathL p.data)).1 = []
  · rw [if_pos hroot, if_pos hroot]
  · rw [if_neg hroot, if_neg hacc, if_neg hroot]

/-- C1 (amended): for every path whose normalization (resolving `.` and `..`)
is neither `/workspace` nor a descendant `/workspace/<rest>` — including
every relative path and sibling-prefix paths such as `/workspace2/x` — both
file tools return a `status = "error"` result and never invoke the
underlying sandbox contract; the error message reports the allowed roots
when the normalized path is absolute, while a relative path gets the
`Path must be absolute` message (which does not mention the roots). -/
theorem tool_file_ops_reject_outside (p content : String)
    (sbRead : String → Except SbError String)
    (sbWrite : String → String → Except SbError Unit) (maxChars : Nat)
    (hne : normpath p ≠ "/workspace")
    (hnd : ∀ t : String, normpath p ≠ "/workspace/" ++ t) :
    (tool_read_file sbRead maxChars p).2 = false ∧
    (tool_read_file sbRead maxChars p).1.status = "error" ∧
    (tool_read_file sbRead maxChars p).1.error =
      some (if (parsePosixL (normpathL p.data)).1 = [] then mustBeAbsoluteMsg p
        else outsideAllowedMsg p) ∧
    (tool_write_file sbWrite p content).2 = false ∧
    (tool_write_file sbWrite p content).1.status = "error" ∧
    (tool_write_file sbWrite p content).1.error =
      (tool_read_file sbRead maxChars p).1.error := by
  have hval := validate_path_rejects p hne hnd
  have hread : tool_read_file sbRead maxChars p =
      ({ status := "error", error := some (if (parsePosixL (normpathL p.data)).1 = []
          then mustBeAbsoluteMsg p else outsideAllowedMsg p) }, false) := by
    unfold tool_read_file
    rw [hval]
  have hwrite : tool_write_file sbWrite p content =
      ({ status := "error", error := some (if (parsePosixL (normpathL p.data)).1 = []
          then mustBeAbsoluteMsg p else outsideAllowedMsg p) }, false) := by
    unfold tool_write_file
    rw [hval]
  rw [hread, hwrite]
  exact ⟨rfl, rfl, rfl, rfl, rfl, rfl⟩

set_option maxRecDepth 8000 in
theorem tool_file_ops_reject_outside_witness :
    normpath "/workspace2/x" ≠ "/workspace" ∧
    (tool_read_file stubRead 100 "/workspace2/x").2 = false ∧
    (tool_read_file stubRead 100 "/workspace2/x").1.status = "error" ∧
    (tool_read_file stubRead 100 "/workspace2/x").1.error =
      some (outsideAllowedMsg "/workspace2/x") ∧
    (tool_write_file stubWrite "/workspace2/x" "data").2 = false := by
  have hnd : ∀ t : String, normpath "/workspace2/x" ≠ "/workspace/" ++ t := by
    intro t ht
    have h1 : leadsWith ("/workspace/" : String).data
        (normpath "/workspace2/x").data = true := by
      rw [ht]
      exact leadsWith_append _ _
    have h2 : leadsWith ("/workspace/" : String).data
        (normpath "/workspace2/x").data = false := by decide
    rw [h1] at h2
    exact Bool.noConfusion h2
  have h := tool_file_ops_reject_outside "/workspace2/x" "data" stubRead
    stubWrite 100 (by decide) hnd
  refine ⟨by decide, h.1, h.2.1, ?_, h.2.2.2.1⟩
  rw [h.2.2.1]
  decide

set_option maxRecDepth 8000 in
/-- C1 (counterexample): for the relative path `foo` the tools do reject and
do not call the contract, but the error message is the `Path must be
absolute` one, which does not report the allowed roots (the string
`/workspace` does not occur in it). -/
theorem relative_path_error_message_cex :
    (tool_read_file stubRead 100 "foo").2 = false ∧
    (tool_read_file stubRead 100 "foo").1.status = "error" ∧
    (tool_read_file stubRead 100 "foo").1.error =
      some "Path must be absolute, got: 'foo'" ∧
    occursIn ("/workspace" : String).data
      ("Path must be absolute, got: 'foo'" : String).data = false := by
  refine ⟨by decide, by decide, by decide, by decide⟩

end SandboxAgent
